import Mathlib

/- Verification development for the fenced-code-block renderer of
go-markdown2confluence (lib/renderer/fencedcode.go).

Modelling conventions: Go strings are modelled as lists of characters
(Go indexes bytes; on the ASCII data all claims are about, bytes and
characters coincide). Functions that can only end in a Go runtime
panic are modelled as returning an Option, with none standing for the
panic. The package-level map SupportedCodeBlockLanguages, which is nil
when reading or JSON-parsing the embedded dataset fails, is modelled
as an Option passed explicitly to the functions that read it. -/

set_option maxRecDepth 8192

namespace Renderer

abbrev Str := List Char

/-- Whitespace characters removed by strings.TrimSpace, that is,
unicode.IsSpace restricted to the Latin-1 range (the general Unicode
space classes beyond Latin-1 do not occur in any input considered
here). -/
def isGoSpace (c : Char) : Bool :=
  c = ' ' || c = '\t' || c = '\n' || c = '\u000B' || c = '\u000C' || c = '\r' ||
    c = '\u0085' || c = '\u00A0'

/-- Drop leading Go whitespace. -/
def trimLeft : Str → Str
  | [] => []
  | c :: cs => if isGoSpace c then trimLeft cs else c :: cs

/-- Drop trailing Go whitespace. -/
def trimRight (s : Str) : Str :=
  (trimLeft s.reverse).reverse

/-- strings.TrimSpace: drop leading and trailing whitespace. -/
def trimSpace (s : Str) : Str :=
  trimRight (trimLeft s)

/-- strings.SplitN(text, ":", 2): if the text contains a colon, the
parts left and right of the first colon (two parts); otherwise none
(the split yields a single part, the text itself). -/
def splitFirstColon : Str → Option (Str × Str)
  | [] => none
  | c :: cs =>
    if c = ':' then some ([], cs)
    else
      match splitFirstColon cs with
      | some (l, r) => some (c :: l, r)
      | none => none

/-- The MacroContentKeys set of the renderer: the two recognized
content keys, plain-text-body and rich-text-body. -/
def MacroContentKeys : List Str :=
  [("plain-text-body").toList, ("rich-text-body").toList]

/-- The reserved sentinel language tag CONFLUENCE-MACRO. -/
def LanguageStringConfluenceMacro : Str :=
  ("CONFLUENCE-MACRO").toList

/-- One iteration of the loop body of writeMacro (fencedcode.go,
lines 111-142) on one line of the block: returns the text appended to
the macrostart builder and the text appended to the parameters
builder. none models the Go runtime panic (index out of range) raised
by evaluating key[0] at line 117 when the trimmed key is empty; in Go
a nonempty trimmed key forces a nonempty untrimmed left part, so the
catch-all branch is reached exactly when the trimmed key is empty. -/
def writeMacroLine (text : Str) : Option (Str × Str) :=
  match splitFirstColon text with
  | some (l, r) =>
    match trimSpace l, l with
    | k0 :: ks, l0 :: _ =>
      if k0 = l0 then
        if (k0 :: ks) ∈ MacroContentKeys then
          some ([], ("<ac:").toList ++ (k0 :: ks) ++ (">").toList ++ trimSpace r ++
            ("</ac:").toList ++ (k0 :: ks) ++ (">").toList)
        else
          some ((" ac:").toList ++ (k0 :: ks) ++ ("=\"").toList ++ trimSpace r ++
            ("\"").toList, [])
      else
        some ([], ("<ac:parameter ac:name=\"").toList ++ (k0 :: ks) ++ ("\">").toList ++
          trimSpace r ++ ("</ac:parameter>").toList)
    | _, _ => none
  | none =>
    some ([], ("<ac:parameter ac:name=\"\">").toList ++ trimSpace text ++
      ("</ac:parameter>").toList)

/-- The loop of writeMacro over the lines of the block, threading the
macrostart and parameters string builders. -/
def writeMacroLoop : List Str → Str → Str → Option (Str × Str)
  | [], ms, ps => some (ms, ps)
  | t :: ts, ms, ps =>
    match writeMacroLine t with
    | some (a, p) => writeMacroLoop ts (ms ++ a) (ps ++ p)
    | none => none

/-- writeMacro (fencedcode.go, lines 104-149): runs the per-line loop
starting from the opening tag literal and an empty parameters buffer,
then writes macrostart, then the closing angle bracket, then the
parameters, then the closing tag. none models the per-line panic. -/
def writeMacro (lines : List Str) : Option Str :=
  match writeMacroLoop lines (("<ac:structured-macro").toList) [] with
  | some (ms, ps) => some (ms ++ (">").toList ++ ps ++ ("</ac:structured-macro>").toList)
  | none => none

/-- writeLines (fencedcode.go, lines 96-102): the block lines written
one after another, verbatim. -/
def writeLines (lines : List Str) : Str :=
  lines.flatten

/-- strings.ToLower (the inputs considered here are ASCII). -/
def toLowerStr (s : Str) : Str :=
  s.map Char.toLower

/-- The StringMap alias table. Go map assignment semantics: a later
binding for the same key overwrites an earlier one, modelled by
consing new bindings at the front and looking up the first match. -/
abbrev StringMap := List (Str × Str)

/-- Go map read m[k]: the most recent binding of k, if any. -/
def lookupMap : StringMap → Str → Option Str
  | [], _ => none
  | (k, v) :: m, key => if k = key then some v else lookupMap m key

/-- DefaultCodeBlockLanguage, the fixed fallback identifier. -/
def DefaultCodeBlockLanguage : Str :=
  ("plain").toList

/-- getSupportLanguage (fencedcode.go, lines 151-160): with an absent
(nil) table the key is returned unchanged; with a present table a hit
returns the stored canonical name and a miss returns the default
identifier (after printing a diagnostic, which has no effect on the
returned value). -/
def getSupportLanguage (table : Option StringMap) (key : Str) : Str :=
  match table with
  | none => key
  | some m =>
    match lookupMap m key with
    | some value => value
    | none => DefaultCodeBlockLanguage

/-- One parsed record of the bundled dataset: a canonical name and its
aliases. -/
structure LanguageEntry where
  name : Str
  aliases : List Str

/-- The map-building loop of loadSupportCodeLanguage (fencedcode.go,
lines 178-185): for each entry in order, each alias is bound to the
entry name, inserted verbatim (no case normalization). Read and
JSON-parse failures make the whole load return nil, modelled by the
callers passing none instead of some of this map. -/
def buildLanguageMap (entries : List LanguageEntry) : StringMap :=
  entries.foldl (fun m e => e.aliases.foldl (fun m2 a => (a, e.name) :: m2) m) []

/-- The text written by the default (plain code) branch of
renderConfluenceFencedCode when entering (fencedcode.go, lines 73-88):
the opening code macro with its two fixed parameters, the language
parameter when a language tag is present, the CDATA opening, then the
block lines. -/
def plainCodeEnter (table : Option StringMap) (language : Option Str)
    (lines : List Str) : Str :=
  ("<ac:structured-macro ac:name=\"code\" ac:schema-version=\"1\">").toList ++
    ("<ac:parameter ac:name=\"theme\">Confluence</ac:parameter>").toList ++
    ("<ac:parameter ac:name=\"linenumbers\">true</ac:parameter>").toList ++
    (match language with
     | none => []
     | some s => ("<ac:parameter ac:name=\"language\">").toList ++
         getSupportLanguage table (toLowerStr s) ++ ("</ac:parameter>").toList) ++
    ("<ac:plain-text-body><![CDATA[ ").toList ++ writeLines lines

/-- The text written by the default (plain code) branch of
renderConfluenceFencedCode when leaving (fencedcode.go, lines 89-91). -/
def plainCodeLeave : Str :=
  (" ]]></ac:plain-text-body></ac:structured-macro>").toList

/-- renderConfluenceFencedCode (fencedcode.go, lines 58-94), as a
function of the alias table, the language tag of the block (none when
the fence has no info string), the block lines and the entering flag,
returning the text written to the output stream; none propagates the
writeMacro panic. The switch compares the language string (empty when
the tag is absent) against the sentinel; the macro branch writes only
when entering; the default branch writes the plain code macro. -/
def renderConfluenceFencedCode (table : Option StringMap) (language : Option Str)
    (lines : List Str) (entering : Bool) : Option Str :=
  let langString : Str := match language with | none => [] | some s => s
  if langString = LanguageStringConfluenceMacro then
    if entering then writeMacro lines else some []
  else
    if entering then some (plainCodeEnter table language lines)
    else some plainCodeLeave

/-- Classification of every line of a block by the per-line loop body:
some list of (macrostart piece, parameters piece) pairs in line order
when no line makes the loop panic. -/
def classifyAll : List Str → Option (List (Str × Str))
  | [] => some []
  | t :: ts =>
    match writeMacroLine t, classifyAll ts with
    | some e, some es => some (e :: es)
    | _, _ => none

/-- Does the pattern occur at the start of the text? -/
def startsWith : Str → Str → Bool
  | _, [] => true
  | [], _ :: _ => false
  | c :: s, p :: ps => c == p && startsWith s ps

/-- Does the pattern occur contiguously anywhere in the text? -/
def isSubstring : Str → Str → Bool
  | [], sub => startsWith [] sub
  | c :: t, sub => startsWith (c :: t) sub || isSubstring t sub


/-! ### Helper lemmas -/

/-- Splitting a text built as left, colon, right finds that first
colon when the left part is colon-free. -/
theorem splitFirstColon_append (l r : Str) (hl : ':' ∉ l) :
    splitFirstColon (l ++ ':' :: r) = some (l, r) := by
  induction l with
  | nil => simp [splitFirstColon]
  | cons c cs ih =>
    have hc : ¬ c = ':' := fun h => hl (by simp [h])
    have hcs : ':' ∉ cs := fun h => hl (List.mem_cons_of_mem _ h)
    simp [splitFirstColon, hc, ih hcs]

/-- A colon-free text does not split into two parts. -/
theorem splitFirstColon_of_not_mem (t : Str) (ht : ':' ∉ t) :
    splitFirstColon t = none := by
  induction t with
  | nil => rfl
  | cons c cs ih =>
    have hc : ¬ c = ':' := fun h => ht (by simp [h])
    have hcs : ':' ∉ cs := fun h => ht (List.mem_cons_of_mem _ h)
    simp [splitFirstColon, hc, ih hcs]

/-- Evaluation of the loop body on a line with a colon-free left part
and a nonempty trimmed key: the three-way classification of the
renderer, with key and value spliced verbatim into the templates. -/
theorem writeMacroLine_keyed (l r : Str) (k0 l0 : Char) (ks ls : Str)
    (hl : ':' ∉ l) (hk : trimSpace l = k0 :: ks) (he : l = l0 :: ls) :
    writeMacroLine (l ++ ':' :: r) =
      if k0 = l0 then
        if (k0 :: ks) ∈ MacroContentKeys then
          some ([], ("<ac:").toList ++ (k0 :: ks) ++ (">").toList ++ trimSpace r ++
            ("</ac:").toList ++ (k0 :: ks) ++ (">").toList)
        else
          some ((" ac:").toList ++ (k0 :: ks) ++ ("=\"").toList ++ trimSpace r ++
            ("\"").toList, [])
      else
        some ([], ("<ac:parameter ac:name=\"").toList ++ (k0 :: ks) ++ ("\">").toList ++
          trimSpace r ++ ("</ac:parameter>").toList) := by
  subst he
  simp only [writeMacroLine, splitFirstColon_append _ _ hl, hk]

/-- A hit in the association list comes from a stored binding. -/
theorem lookupMap_mem (m : StringMap) (k v : Str) (h : lookupMap m k = some v) :
    (k, v) ∈ m := by
  induction m with
  | nil => simp [lookupMap] at h
  | cons kv m ih =>
    obtain ⟨k2, v2⟩ := kv
    by_cases hk : k2 = k
    · subst hk
      simp [lookupMap] at h
      simp [h]
    · simp [lookupMap, hk] at h
      exact List.mem_cons_of_mem _ (ih h)

/-- The pattern occurs at the start of a text that begins with it. -/
theorem startsWith_append (sub post : Str) : startsWith (sub ++ post) sub = true := by
  induction sub with
  | nil => simp [startsWith]
  | cons c cs ih => simp [startsWith, ih]

/-- A pattern at the start of the text occurs in the text. -/
theorem isSubstring_of_startsWith (s sub : Str) (h : startsWith s sub = true) :
    isSubstring s sub = true := by
  cases s with
  | nil => simpa [isSubstring] using h
  | cons c t => simp [isSubstring, h]

/-- Occurrence survives prepending text on the left. -/
theorem isSubstring_append_left (pre s sub : Str) (h : isSubstring s sub = true) :
    isSubstring (pre ++ s) sub = true := by
  induction pre with
  | nil => simpa using h
  | cons c cs ih => simp [isSubstring, ih]

/-- Any explicit decomposition of the text exhibits an occurrence. -/
theorem isSubstring_of_decomp (s pre sub post : Str) (h : s = pre ++ (sub ++ post)) :
    isSubstring s sub = true := by
  subst h
  exact isSubstring_append_left _ _ _
    (isSubstring_of_startsWith _ _ (startsWith_append sub post))

/-- The loop of writeMacro appends, to whatever is already in the two
builders, the macrostart pieces and the parameters pieces of the lines
in line order. -/
theorem writeMacroLoop_spec (ls : List Str) (es : List (Str × Str))
    (h : classifyAll ls = some es) :
    ∀ ms ps : Str, writeMacroLoop ls ms ps =
      some (ms ++ (es.map Prod.fst).flatten, ps ++ (es.map Prod.snd).flatten) := by
  induction ls generalizing es with
  | nil =>
    intro ms ps
    simp only [classifyAll, Option.some.injEq] at h
    subst h
    simp [writeMacroLoop]
  | cons t ts ih =>
    intro ms ps
    cases hwt : writeMacroLine t with
    | none => simp [classifyAll, hwt] at h
    | some e =>
      cases hts : classifyAll ts with
      | none => simp [classifyAll, hwt, hts] at h
      | some es2 =>
        simp only [classifyAll, hwt, hts, Option.some.injEq] at h
        subst h
        obtain ⟨a, p⟩ := e
        simp only [writeMacroLoop, hwt]
        rw [ih es2 hts (ms ++ a) (ps ++ p)]
        simp [List.append_assoc]



/-! ### Claims -/

/-- Claim C1 (code bug). The claim states that classifying the lines
of a macro-declaration block never fails, explicitly including lines
whose key is empty after trimming, such as a line beginning with a
colon. The code refutes this: on such a line writeMacro evaluates
key[0] on the empty trimmed key (fencedcode.go, line 117) and panics
with an index-out-of-range runtime error. This theorem evaluates the
embedded code at the failing input, where none is the model of the
panic: the block consisting of the single line ": green" makes the
whole emitter abort instead of producing an output element. -/
theorem writeMacro_crashes_on_empty_key :
    writeMacro [((": green").toList)] = none ∧
    writeMacroLine ((": green").toList) = none := by
  exact ⟨by decide, by decide⟩

/-- Claim C2 (confirmed). For a macro-declaration line containing a
colon (left part l colon-free, right part r), with key the trimmed
left part (nonempty, as required for the classification to be
reached) and value the trimmed right part: if the key was not
indented, that is, its first character equals the first character of
the untrimmed left segment, then a recognized content key
(plain-text-body or rich-text-body) yields the content element
<ac:key>value</ac:key> and any other key yields the attribute
ac:key="value" appended to the opening tag; an indented key yields
<ac:parameter ac:name="key">value</ac:parameter> regardless of its
name. -/
theorem writeMacroLine_keyed_classification (l r : Str) (k0 l0 : Char) (ks ls : Str)
    (hl : ':' ∉ l) (hk : trimSpace l = k0 :: ks) (he : l = l0 :: ls) :
    (k0 = l0 →
      ((k0 :: ks) = ("plain-text-body").toList ∨ (k0 :: ks) = ("rich-text-body").toList) →
      writeMacroLine (l ++ ':' :: r) =
        some ([], ("<ac:").toList ++ (k0 :: ks) ++ (">").toList ++ trimSpace r ++
          ("</ac:").toList ++ (k0 :: ks) ++ (">").toList)) ∧
    (k0 = l0 →
      ¬((k0 :: ks) = ("plain-text-body").toList ∨ (k0 :: ks) = ("rich-text-body").toList) →
      writeMacroLine (l ++ ':' :: r) =
        some ((" ac:").toList ++ (k0 :: ks) ++ ("=\"").toList ++ trimSpace r ++
          ("\"").toList, [])) ∧
    (k0 ≠ l0 →
      writeMacroLine (l ++ ':' :: r) =
        some ([], ("<ac:parameter ac:name=\"").toList ++ (k0 :: ks) ++ ("\">").toList ++
          trimSpace r ++ ("</ac:parameter>").toList)) := by
  have h := writeMacroLine_keyed l r k0 l0 ks ls hl hk he
  have hmem : ((k0 :: ks) ∈ MacroContentKeys) ↔
      ((k0 :: ks) = ("plain-text-body").toList ∨ (k0 :: ks) = ("rich-text-body").toList) := by
    simp [MacroContentKeys]
  refine ⟨?_, ?_, ?_⟩
  · intro h1 h2
    rw [h, if_pos h1, if_pos (hmem.mpr h2)]
  · intro h1 h2
    rw [h, if_pos h1, if_neg (fun hm => h2 (hmem.mp hm))]
  · intro h1
    rw [h, if_neg h1]

/-- Witness for claim C2: the recognized content key plain-text-body,
unindented, with value hello, produces the content element. -/
theorem writeMacroLine_keyed_classification_witness :
    writeMacroLine ((("plain-text-body").toList) ++ ':' :: ((" hello").toList)) =
      some ([], ("<ac:plain-text-body>hello</ac:plain-text-body>").toList) := by
  have h := (writeMacroLine_keyed_classification (("plain-text-body").toList)
    ((" hello").toList) 'p' 'p' (("lain-text-body").toList) (("lain-text-body").toList)
    (by decide) (by decide) (by decide)).1 rfl (Or.inl (by decide))
  exact h.trans (by decide)

/-- Claim C6 (confirmed). A non-empty macro-declaration line with no
colon is emitted as a parameter with an empty name whose value is the
whole line trimmed of surrounding whitespace. -/
theorem writeMacroLine_no_colon (t : Str) (h1 : ':' ∉ t) (h2 : t ≠ []) :
    writeMacroLine t =
      some ([], ("<ac:parameter ac:name=\"\">").toList ++ trimSpace t ++
        ("</ac:parameter>").toList) := by
  simp only [writeMacroLine, splitFirstColon_of_not_mem t h1]

/-- Witness for claim C6: the line "just a value". -/
theorem writeMacroLine_no_colon_witness :
    writeMacroLine (("just a value").toList) =
      some ([], ("<ac:parameter ac:name=\"\">just a value</ac:parameter>").toList) := by
  have h := writeMacroLine_no_colon (("just a value").toList) (by decide) (by decide)
  exact h.trans (by decide)


/-- Claim C3 (confirmed). A fenced block whose language tag is exactly
the case-sensitive string CONFLUENCE-MACRO makes the transformer emit
the entire macro output on the entering visit and nothing on the
leaving visit; any other tag, and the absence of a tag, takes the
plain-code path (plainCodeEnter when entering, plainCodeLeave when
leaving). -/
theorem renderConfluenceFencedCode_dispatch (table : Option StringMap) (lines : List Str) :
    (renderConfluenceFencedCode table (some LanguageStringConfluenceMacro) lines true =
        writeMacro lines ∧
      renderConfluenceFencedCode table (some LanguageStringConfluenceMacro) lines false =
        some []) ∧
    (∀ language : Option Str, language ≠ some LanguageStringConfluenceMacro →
      renderConfluenceFencedCode table language lines true =
          some (plainCodeEnter table language lines) ∧
        renderConfluenceFencedCode table language lines false = some plainCodeLeave) := by
  constructor
  · constructor <;> simp [renderConfluenceFencedCode]
  · intro language hlang
    cases language with
    | none =>
      have hne : ([] : Str) ≠ LanguageStringConfluenceMacro := by decide
      constructor <;> simp [renderConfluenceFencedCode, hne]
    | some t =>
      have hne : t ≠ LanguageStringConfluenceMacro := fun h => hlang (by rw [h])
      constructor <;> simp [renderConfluenceFencedCode, hne]

/-- Witness for claim C3: a tag other than the sentinel takes the
plain-code path on both visits. -/
theorem renderConfluenceFencedCode_dispatch_witness :
    renderConfluenceFencedCode none (some (("go").toList)) [(("x").toList)] true =
        some (plainCodeEnter none (some (("go").toList)) [(("x").toList)]) ∧
      renderConfluenceFencedCode none (some (("go").toList)) [(("x").toList)] false =
        some plainCodeLeave :=
  (renderConfluenceFencedCode_dispatch none [(("x").toList)]).2
    (some (("go").toList)) (by decide)

/-- Claim C4 (confirmed). For every plain-code fenced block, the
entering visit emits the opening code structured-macro, then the
theme=Confluence parameter, then the linenumbers=true parameter, then
(exactly when a language tag is present) a language parameter whose
value is the alias-table lookup of the lowercased tag, then the CDATA
plain-text-body opening, then the block lines verbatim; the leaving
visit emits the closing plain-text-body and structured-macro tags. -/
theorem renderConfluenceFencedCode_plain_shape (table : Option StringMap) (lines : List Str) :
    (∀ t : Str, t ≠ LanguageStringConfluenceMacro →
      renderConfluenceFencedCode table (some t) lines true =
          some ((("<ac:structured-macro ac:name=\"code\" ac:schema-version=\"1\">").toList ++
            ("<ac:parameter ac:name=\"theme\">Confluence</ac:parameter>").toList ++
            ("<ac:parameter ac:name=\"linenumbers\">true</ac:parameter>").toList ++
            ("<ac:parameter ac:name=\"language\">").toList ++
            getSupportLanguage table (toLowerStr t) ++ ("</ac:parameter>").toList ++
            ("<ac:plain-text-body><![CDATA[ ").toList ++ writeLines lines)) ∧
        renderConfluenceFencedCode table (some t) lines false =
          some ((" ]]></ac:plain-text-body></ac:structured-macro>").toList)) ∧
    (renderConfluenceFencedCode table none lines true =
        some ((("<ac:structured-macro ac:name=\"code\" ac:schema-version=\"1\">").toList ++
          ("<ac:parameter ac:name=\"theme\">Confluence</ac:parameter>").toList ++
          ("<ac:parameter ac:name=\"linenumbers\">true</ac:parameter>").toList ++
          ("<ac:plain-text-body><![CDATA[ ").toList ++ writeLines lines)) ∧
      renderConfluenceFencedCode table none lines false =
        some ((" ]]></ac:plain-text-body></ac:structured-macro>").toList)) := by
  have hne : ([] : Str) ≠ LanguageStringConfluenceMacro := by decide
  refine ⟨fun t ht => ⟨?_, ?_⟩, ⟨?_, ?_⟩⟩
  · simp [renderConfluenceFencedCode, ht, plainCodeEnter, List.append_assoc]
  · simp [renderConfluenceFencedCode, ht, plainCodeLeave]
  · simp [renderConfluenceFencedCode, hne, plainCodeEnter, List.append_assoc]
  · simp [renderConfluenceFencedCode, hne, plainCodeLeave]

/-- Witness for claim C4: a plain block with language python and body
x = 1, with a table mapping python to python, renders the exact
opening sequence of the claim. -/
theorem renderConfluenceFencedCode_plain_shape_witness :
    renderConfluenceFencedCode (some [(("python").toList, ("python").toList)])
      (some (("python").toList)) [(("x = 1").toList)] true =
      some (("<ac:structured-macro ac:name=\"code\" ac:schema-version=\"1\"><ac:parameter ac:name=\"theme\">Confluence</ac:parameter><ac:parameter ac:name=\"linenumbers\">true</ac:parameter><ac:parameter ac:name=\"language\">python</ac:parameter><ac:plain-text-body><![CDATA[ x = 1").toList) := by
  have h := ((renderConfluenceFencedCode_plain_shape
    (some [(("python").toList, ("python").toList)]) [(("x = 1").toList)]).1
    (("python").toList) (by decide)).1
  exact h.trans (by decide)

/-- Claim C5 (confirmed). The final output of the macro emitter is
exactly the opening literal, then all accumulated attribute pieces,
then the closing angle bracket, then all accumulated parameter and
content pieces in the order of the lines that produced them, then the
closing tag; the empty macro-declaration body yields a macro with no
attributes, parameters or content. -/
theorem writeMacro_output_shape :
    writeMacro [] = some (("<ac:structured-macro></ac:structured-macro>").toList) ∧
    (∀ (ls : List Str) (es : List (Str × Str)), classifyAll ls = some es →
      writeMacro ls =
        some (("<ac:structured-macro").toList ++ (es.map Prod.fst).flatten ++
          (">").toList ++ (es.map Prod.snd).flatten ++
          ("</ac:structured-macro>").toList)) := by
  constructor
  · decide
  · intro ls es h
    simp only [writeMacro, writeMacroLoop_spec ls es h]
    simp [List.append_assoc]

/-- Witness for claim C5: the three-line block of the specification
example, whose elements appear in line order (attribute on the opening
tag, then the parameter of the indented line, then the content
section). -/
theorem writeMacro_output_shape_witness :
    writeMacro [(("status: green").toList), (("  title: Build OK").toList),
      (("plain-text-body: hello").toList)] =
      some (("<ac:structured-macro ac:status=\"green\"><ac:parameter ac:name=\"title\">Build OK</ac:parameter><ac:plain-text-body>hello</ac:plain-text-body></ac:structured-macro>").toList) := by
  have h := (writeMacro_output_shape).2
    [(("status: green").toList), (("  title: Build OK").toList),
      (("plain-text-body: hello").toList)]
    [((" ac:status=\"green\"").toList, []),
      ([], ("<ac:parameter ac:name=\"title\">Build OK</ac:parameter>").toList),
      ([], ("<ac:plain-text-body>hello</ac:plain-text-body>").toList)]
    (by decide)
  exact h.trans (by decide)


/-- Claim C7 (confirmed). The language lookup is total and three-way:
with the table absent (nil, as after a dataset read or JSON-parse
failure) it returns its input unchanged; with the table present and
the tag a known alias key it returns the mapped canonical name; with
the table present and the tag unknown it returns the fixed default
identifier plain (the logged diagnostic does not affect the result).
Being a total function of its inputs, it never propagates an error
upward. -/
theorem getSupportLanguage_three_way :
    (∀ key : Str, getSupportLanguage none key = key) ∧
    (∀ (m : StringMap) (key value : Str), lookupMap m key = some value →
      getSupportLanguage (some m) key = value) ∧
    (∀ (m : StringMap) (key : Str), lookupMap m key = none →
      getSupportLanguage (some m) key = ("plain").toList) := by
  refine ⟨fun key => rfl, fun m key value h => ?_, fun m key h => ?_⟩
  · simp [getSupportLanguage, h]
  · simp [getSupportLanguage, h, DefaultCodeBlockLanguage]

/-- Witness for claim C7: a one-entry table hit, a miss falling back
to plain, and the absent-table pass-through. -/
theorem getSupportLanguage_three_way_witness :
    getSupportLanguage none (("go").toList) = ("go").toList ∧
    getSupportLanguage (some [(("py").toList, ("python").toList)]) (("py").toList) =
      ("python").toList ∧
    getSupportLanguage (some [(("py").toList, ("python").toList)]) (("rb").toList) =
      ("plain").toList :=
  ⟨(getSupportLanguage_three_way).1 (("go").toList),
    (getSupportLanguage_three_way).2.1 [(("py").toList, ("python").toList)]
      (("py").toList) (("python").toList) (by decide),
    (getSupportLanguage_three_way).2.2 [(("py").toList, ("python").toList)]
      (("rb").toList) (by decide)⟩

/-- Counterexample for claim C8. The claim states that alias keys are
normalized to lowercase when the table is built, so that every dataset
alias can be looked up in any letter case. The build loop of
loadSupportCodeLanguage inserts alias keys verbatim: for the dataset
entry mapping alias Py to canonical name c, the stored key is Py, and
the full lookup pipeline (which lowercases only the queried tag)
misses it and returns plain instead of c — even for the query Py
itself. -/
theorem buildLanguageMap_uppercase_cx :
    lookupMap (buildLanguageMap [⟨("c").toList, [("Py").toList]⟩]) (("Py").toList) =
      some (("c").toList) ∧
    getSupportLanguage (some (buildLanguageMap [⟨("c").toList, [("Py").toList]⟩]))
      (toLowerStr (("Py").toList)) = ("plain").toList ∧
    ("plain").toList ≠ ("c").toList := by
  exact ⟨by decide, by decide, by decide⟩

/-- Claim C8 (corrected). Alias keys are inserted verbatim at load;
only the queried tag is lowercased at lookup time. Hence end-to-end
case insensitivity holds exactly for aliases that are already all
lowercase: if the built table maps an all-lowercase alias a to
canonical name c, then looking up any letter-case variant t of a
returns c. -/
theorem alias_lowercase_only_at_lookup (ds : List LanguageEntry) (a c t : Str)
    (ha : toLowerStr a = a) (hm : lookupMap (buildLanguageMap ds) a = some c)
    (ht : toLowerStr t = a) :
    getSupportLanguage (some (buildLanguageMap ds)) (toLowerStr t) = c := by
  rw [ht]
  simp [getSupportLanguage, hm]

/-- Witness for claim C8 as amended: the all-lowercase alias py mapped
to python is found when queried as PY. -/
theorem alias_lowercase_only_at_lookup_witness :
    getSupportLanguage
      (some (buildLanguageMap [⟨("python").toList, [("py").toList]⟩]))
      (toLowerStr (("PY").toList)) = ("python").toList :=
  alias_lowercase_only_at_lookup [⟨("python").toList, [("py").toList]⟩]
    (("py").toList) (("python").toList) (("PY").toList)
    (by decide) (by decide) (by decide)

/-- Counterexample for claim C9. The claim states that the language
lookup never returns the empty string for any input and any table
state. With the table absent the code returns its input unchanged, so
the empty input yields the empty string. -/
theorem getSupportLanguage_empty_cx :
    getSupportLanguage none ([] : Str) = ([] : Str) := rfl

/-- Claim C9 (corrected). The lookup is a total function (it never
raises an error), and it never returns the empty string provided the
degenerate cases are excluded: with the table absent the input must be
non-empty (the input is returned unchanged), and with the table
present every canonical name stored in it must be non-empty (a hit
returns the stored name; a miss returns the non-empty default
plain). -/
theorem getSupportLanguage_nonempty_cond (table : Option StringMap) (key : Str) :
    (table = none → key ≠ [] → getSupportLanguage table key ≠ []) ∧
    (∀ m : StringMap, table = some m → (∀ kv : Str × Str, kv ∈ m → kv.2 ≠ []) →
      getSupportLanguage table key ≠ []) := by
  constructor
  · intro h hk
    subst h
    simpa [getSupportLanguage] using hk
  · intro m h hv
    subst h
    cases hl : lookupMap m key with
    | none => simp [getSupportLanguage, hl, DefaultCodeBlockLanguage]
    | some v =>
      simp only [getSupportLanguage, hl]
      exact hv (key, v) (lookupMap_mem m key v hl)

/-- Witness for claim C9 as amended: a non-empty input with the table
absent yields a non-empty result. -/
theorem getSupportLanguage_nonempty_cond_witness :
    getSupportLanguage none (("go").toList) ≠ [] :=
  (getSupportLanguage_nonempty_cond none (("go").toList)).1 rfl (by decide)

/-- Claim C10 (confirmed). The macro emitter splices keys and values
into its output verbatim, with no XML escaping: for every
macro-declaration line with a colon (colon-free left part), whatever
characters the trimmed key and trimmed value contain — including
double quote, angle bracket, ampersand, or a CDATA terminator — the
key and the value occur as contiguous verbatim substrings of the
emitted attribute, parameter element, or content-section element. -/
theorem writeMacroLine_verbatim (l r a p : Str) (hl : ':' ∉ l)
    (h : writeMacroLine (l ++ ':' :: r) = some (a, p)) :
    isSubstring (a ++ p) (trimSpace l) = true ∧
    isSubstring (a ++ p) (trimSpace r) = true := by
  rcases l with _ | ⟨l0, ls⟩
  · rw [show writeMacroLine ([] ++ ':' :: r) = none from by
      simp [writeMacroLine, splitFirstColon, trimSpace, trimLeft, trimRight]] at h
    cases h
  · cases hk : trimSpace (l0 :: ls) with
    | nil =>
      rw [show writeMacroLine ((l0 :: ls) ++ ':' :: r) = none from by
        simp only [writeMacroLine, splitFirstColon_append _ _ hl, hk]] at h
      cases h
    | cons k0 ks =>
      rw [writeMacroLine_keyed (l0 :: ls) r k0 l0 ks ls hl hk rfl] at h
      split_ifs at h with h1 h2
      · simp only [Option.some.injEq, Prod.mk.injEq] at h
        obtain ⟨ha, hp⟩ := h
        subst ha
        subst hp
        refine ⟨?_, ?_⟩
        · exact isSubstring_of_decomp _ (("<ac:").toList) _
            ((">").toList ++ trimSpace r ++ ("</ac:").toList ++ (k0 :: ks) ++ (">").toList)
            (by simp [List.append_assoc])
        · exact isSubstring_of_decomp _ (("<ac:").toList ++ (k0 :: ks) ++ (">").toList) _
            (("</ac:").toList ++ (k0 :: ks) ++ (">").toList) (by simp [List.append_assoc])
      · simp only [Option.some.injEq, Prod.mk.injEq] at h
        obtain ⟨ha, hp⟩ := h
        subst ha
        subst hp
        refine ⟨?_, ?_⟩
        · exact isSubstring_of_decomp _ ((" ac:").toList) _
            (("=\"").toList ++ trimSpace r ++ ("\"").toList) (by simp [List.append_assoc])
        · exact isSubstring_of_decomp _ ((" ac:").toList ++ (k0 :: ks) ++ ("=\"").toList) _
            (("\"").toList) (by simp [List.append_assoc])
      · simp only [Option.some.injEq, Prod.mk.injEq] at h
        obtain ⟨ha, hp⟩ := h
        subst ha
        subst hp
        refine ⟨?_, ?_⟩
        · exact isSubstring_of_decomp _ (("<ac:parameter ac:name=\"").toList) _
            (("\">").toList ++ trimSpace r ++ ("</ac:parameter>").toList)
            (by simp [List.append_assoc])
        · exact isSubstring_of_decomp _
            (("<ac:parameter ac:name=\"").toList ++ (k0 :: ks) ++ ("\">").toList) _
            (("</ac:parameter>").toList) (by simp [List.append_assoc])

/-- Witness for claim C10: a key containing a double quote and a value
containing an angle bracket and an ampersand occur verbatim in the
emitted attribute text. -/
theorem writeMacroLine_verbatim_witness :
    isSubstring (((" ac:a\"b=\"x<&y\"").toList) ++ []) (trimSpace (("a\"b").toList)) = true ∧
    isSubstring (((" ac:a\"b=\"x<&y\"").toList) ++ []) (trimSpace ((" x<&y").toList)) = true :=
  writeMacroLine_verbatim (("a\"b").toList) ((" x<&y").toList)
    ((" ac:a\"b=\"x<&y\"").toList) [] (by decide) (by decide)

end Renderer
